import Mathlib

/-!
# Verification of the TypeORM-to-Prisma codemod core

A shallow embedding of `src/typeorm-to-prisma.js`: the syntax-tree fragment the
codemod manipulates, the three transformation stages
(`transformEntityClasses`, `transformRepositoryUsage`, `transformModuleImports`),
the change-flag record, and the output-assembly decision of the exported
transform.  Theorems at the end settle the specification claims about this
code.

Modelling conventions:
* JS AST nodes become the mutual inductives `Expr` / `ExprList` / `PropList`.
  Object-literal properties are modelled as (string key, value) pairs: the
  codemod only ever reads `prop.key.name` / `prop.key.value`, i.e. plain keys.
* Member accesses carry an identifier property name (`a.b`); the codemod's
  matching only ever inspects `property.name`, which is a string.
* TypeScript type annotations become `TSType` (`string` / `number` / `boolean`
  keywords and type references with type-parameter lists).
* `jscodeshift`'s `root.find(j.CallExpression).forEach` visits every call in
  the tree once; argument-wrapping mutations reuse the original child nodes,
  so the net effect is modelled as one bottom-up rewriting pass.
* `insertBefore(j.commentLine ...)` becomes a list of leading-comment strings
  collected next to the enclosing statement.
-/

mutual

/-- JS/TS expression nodes, restricted to the node kinds the codemod inspects
or constructs (lines 93-1005 of `typeorm-to-prisma.js`). -/
inductive Expr where
  | numLit (n : Int)
  | strLit (s : String)
  | boolLit (b : Bool)
  | nullLit
  | ident (name : String)
  | thisE
  | member (obj : Expr) (prop : String)
  | arrow (body : Expr)
  | call (callee : Expr) (args : ExprList)
  | obj (props : PropList)
  deriving Repr, DecidableEq

/-- Ordered argument lists of a call expression. -/
inductive ExprList where
  | nil
  | cons (hd : Expr) (tl : ExprList)
  deriving Repr, DecidableEq

/-- Ordered property lists of an object literal: `key : value` pairs. -/
inductive PropList where
  | nil
  | cons (key : String) (val : Expr) (tl : PropList)
  deriving Repr, DecidableEq

end

mutual

/-- TypeScript type annotations, restricted to the shapes the codemod
inspects: the `string`/`number`/`boolean` keywords and `TSTypeReference`
nodes with an identifier name and optional type parameters. -/
inductive TSType where
  | str
  | num
  | bool
  | ref (name : String) (params : TSTypeList)
  deriving Repr, DecidableEq

/-- Type-parameter lists of a `TSTypeReference`. -/
inductive TSTypeList where
  | nil
  | cons (hd : TSType) (tl : TSTypeList)
  deriving Repr, DecidableEq

end

/-- Import specifiers: `named` models `ImportSpecifier` nodes (the only kind
the codemod's predicates accept); `other` stands for default/namespace
specifiers. -/
inductive ImportSpecifier where
  | named (name : String)
  | other (name : String)
  deriving Repr, DecidableEq

/-- A top-level `ImportDeclaration`: source path and specifier list. -/
structure ImportDecl where
  source : String
  specifiers : List ImportSpecifier
  deriving Repr, DecidableEq

/-- A constructor parameter: `prop` models `TSParameterProperty` (parameter
properties such as `private repository: Repository<User>`), `plain` an
ordinary identifier parameter. -/
inductive CtorParam where
  | prop (name : String) (ty : Option TSType)
  | plain (name : String) (ty : Option TSType)
  deriving Repr, DecidableEq

/-- A `ClassProperty`: name, attached decorators (name and argument list),
and optional type annotation. -/
structure ClassProp where
  name : String
  decorators : List (String × ExprList)
  typeAnn : Option TSType
  deriving Repr, DecidableEq

/-- A `ClassDeclaration`: name, class-level decorators, properties,
constructor parameters, and the expressions appearing in method bodies. -/
structure ClassDecl where
  name : String
  decorators : List (String × ExprList)
  props : List ClassProp
  ctorParams : List CtorParam
  bodyExprs : List Expr
  deriving Repr, DecidableEq

/-- Top-level statements of one file. -/
inductive Stmt where
  | importDecl (d : ImportDecl)
  | classDecl (c : ClassDecl)
  | exprStmt (e : Expr)
  deriving Repr, DecidableEq

/-- A statement together with its leading comments (the codemod's
`insertBefore(j.commentLine ...)` targets). -/
structure LStmt where
  lead : List String
  stmt : Stmt
  deriving Repr, DecidableEq

/-- One parsed file. -/
structure File where
  body : List LStmt
  deriving Repr, DecidableEq

/-- The `fileChanged` record (lines 69-74). -/
structure ChangeFlags where
  entities : Bool
  repositories : Bool
  modules : Bool
  services : Bool
  deriving Repr, DecidableEq

/-! ## List helpers mirroring the JS array operations used by the codemod -/

/-- `a.concat(b)` on property lists. -/
def PropList.append : PropList → PropList → PropList
  | .nil, b => b
  | .cons k v tl, b => .cons k v (PropList.append tl b)

/-- `props.filter(p)` keeping the properties satisfying the predicate. -/
def PropList.filterP (p : String → Expr → Bool) : PropList → PropList
  | .nil => .nil
  | .cons k v tl => if p k v then .cons k v (PropList.filterP p tl) else PropList.filterP p tl

/-- `props.some(p)` / `props.find(p) !== undefined`. -/
def PropList.anyP (p : String → Expr → Bool) : PropList → Bool
  | .nil => false
  | .cons k v tl => p k v || PropList.anyP p tl

/-- Value of the first property whose key satisfies the predicate
(`props.findIndex` followed by reading `.value`). -/
def PropList.firstVal? (p : String → Bool) : PropList → Option Expr
  | .nil => none
  | .cons k v tl => if p k then some v else PropList.firstVal? p tl

/-- `props.splice(idx, 1)` at the index found by `findIndex(p)`: removes the
first property whose key satisfies the predicate. -/
def PropList.removeFirst (p : String → Bool) : PropList → PropList
  | .nil => .nil
  | .cons k v tl => if p k then tl else .cons k v (PropList.removeFirst p tl)

/-- Number of properties carrying the given key. -/
def PropList.countKey (key : String) : PropList → Nat
  | .nil => 0
  | .cons k _ tl => (if k == key then 1 else 0) + PropList.countKey key tl

/-- Whether the pair `key : v` occurs in the list. -/
def PropList.containsPair (key : String) (v : Expr) : PropList → Bool
  | .nil => false
  | .cons k w tl => (k == key && w == v) || PropList.containsPair key v tl

/-! ## String primitives

JS `String.prototype` operations, implemented structurally over the
character list so that concrete inputs evaluate inside the kernel. -/

/-- Whether `sub` occurs in the list (helper of `containsSubstr`). -/
def containsSubList (sub : List Char) : List Char → Bool
  | [] => sub.isEmpty
  | c :: rest => sub.isPrefixOf (c :: rest) || containsSubList sub rest

/-- `s.includes(sub)`. -/
def containsSubstr (s sub : String) : Bool :=
  containsSubList sub.data s.data

/-- `s.endsWith(suffix)`. -/
def strEndsWith (s suffix : String) : Bool :=
  suffix.data.isSuffixOf s.data

/-- `s.toLowerCase()` (ASCII, which is all the codemod compares). -/
def strToLower (s : String) : String :=
  ⟨s.data.map Char.toLower⟩

/-- The character count of a string (the regex quantifiers of the codemod
count characters). -/
def strLength (s : String) : Nat :=
  s.data.length

/-- Removal of the last `n` characters (the `(.+)` capture before a fixed
suffix). -/
def strDropRight (s : String) (n : Nat) : String :=
  ⟨s.data.take (s.data.length - n)⟩

/-! ## Mapping tables (lines 22-64) -/

/-- The reachable part of `typeormToPrismaTypeMap` (lines 22-48).  Lookups
always go through `toLowerCase`, so only the lower-case keys of the JS object
literal can be hit (the duplicate `boolean`/`json` keys of the literal
collapse to the same values). -/
def typeormToPrismaTypeMap : String → Option String
  | "string" => some "String"
  | "number" => some "Int"
  | "boolean" => some "Boolean"
  | "json" => some "Json"
  | "varchar" => some "String"
  | "text" => some "String"
  | "int" => some "Int"
  | "integer" => some "Int"
  | "smallint" => some "Int"
  | "bigint" => some "BigInt"
  | "float" => some "Float"
  | "double" => some "Float"
  | "decimal" => some "Decimal"
  | "date" => some "DateTime"
  | "datetime" => some "DateTime"
  | "timestamp" => some "DateTime"
  | "enum" => some "Enum"
  | "jsonb" => some "Json"
  | "uuid" => some "String"
  | "simple-array" => some "String[]"
  | "simple-json" => some "Json"
  | _ => none

/-- `decoratorMap` (lines 51-64).  Declared by the script but never read;
embedded for completeness. -/
def decoratorMap : String → Option String
  | "PrimaryGeneratedColumn" => some "id"
  | "PrimaryColumn" => some "id"
  | "Column" => some "field"
  | "CreateDateColumn" => some "createdAt"
  | "UpdateDateColumn" => some "updatedAt"
  | "DeleteDateColumn" => some "deletedAt"
  | "OneToOne" => some "relation"
  | "ManyToOne" => some "relation"
  | "OneToMany" => some "relation"
  | "ManyToMany" => some "relation"
  | "JoinColumn" => some "join"
  | "JoinTable" => some "join"
  | _ => none

/-- `mapTypeOrmTypeToPrisma` (lines 342-344): unknown names default to
`String`. -/
def mapTypeOrmTypeToPrisma (typeormType : String) : String :=
  (typeormToPrismaTypeMap (strToLower typeormType)).getD "String"

/-- `extractTypeFromProperty` (lines 347-377), as a function of the
property's type annotation.  (The `|| 'String'` on line 372 is dead code:
`mapTypeOrmTypeToPrisma` never returns a falsy value.) -/
def extractTypeFromProperty (tyAnn : Option TSType) : String :=
  match tyAnn with
  | none => "String"
  | some .str => "String"
  | some .num => "Int"
  | some .bool => "Boolean"
  | some (.ref typeName _) =>
      match typeName with
      | "Date" => "DateTime"
      | "number" => "Int"
      | "string" => "String"
      | "boolean" => "Boolean"
      | _ => mapTypeOrmTypeToPrisma typeName

/-! ## Schema Extractor: model-fragment rendering (lines 84-344) -/

/-- `PrimaryGeneratedColumn` handling (lines 155-178).  A first argument that
is not the string `"uuid"` or `"increment"` leaves `idType = 'Int'` and
`idOptions = ''` (the rendered line then ends in a space before the
newline, exactly as the template literal does). -/
def primaryGeneratedColumnFragment (propertyName : String) (decoratorArgs : ExprList) : String :=
  let p : String × String :=
    match decoratorArgs with
    | .nil => ("Int", "@id @default(autoincrement())")
    | .cons a _ =>
        match a with
        | .strLit "uuid" => ("String", "@id @default(uuid())")
        | .strLit "increment" => ("Int", "@id @default(autoincrement())")
        | _ => ("Int", "")
  "  " ++ propertyName ++ " " ++ p.1 ++ " " ++ p.2 ++ "\n"

/-- The `default:` option of a `@Column` options object (lines 214-234).
Returns the rendered default expression, or `none` when nothing is pushed:
the JS code builds `defaultValue` from `prop.value.value` and only pushes
`@default(...)` when `defaultValue` is truthy, so the number `0` and the
boolean `false` are silently dropped. -/
def columnDefaultValue? (v : Expr) : Option String :=
  match v with
  | .strLit s => some ("\"" ++ s ++ "\"")
  | .numLit n => if n == 0 then none else some (toString n)
  | .boolLit b => if b then some "true" else none
  | .call (.ident "Date") _ => some "now()"
  | _ => none

/-- One step of the `@Column` options-object walk (lines 200-241): updates
`(columnType, columnOptions)` for a property of the options object. -/
def columnOptionStep (acc : String × List String) (k : String) (v : Expr) : String × List String :=
  match k with
  | "type" =>
      match v with
      | .strLit s => (mapTypeOrmTypeToPrisma s, acc.2)
      | _ => acc
  | "nullable" => if v == .boolLit true then (acc.1, acc.2 ++ ["?"]) else acc
  | "default" =>
      match columnDefaultValue? v with
      | some dv => (acc.1, acc.2 ++ ["@default(" ++ dv ++ ")"])
      | none => acc
  | "unique" => if v == .boolLit true then (acc.1, acc.2 ++ ["@unique"]) else acc
  | _ => acc

/-- Fold of `columnOptionStep` over the options object's properties. -/
def columnOptionsFold (acc : String × List String) : PropList → String × List String
  | .nil => acc
  | .cons k v tl => columnOptionsFold (columnOptionStep acc k v) tl

/-- `Column` handling (lines 186-252). -/
def columnFragment (propertyName : String) (decoratorArgs : ExprList) (tyAnn : Option TSType) : String :=
  let p : String × List String :=
    match decoratorArgs with
    | .nil => (extractTypeFromProperty tyAnn, [])
    | .cons a _ =>
        match a with
        | .strLit s => (mapTypeOrmTypeToPrisma s, [])
        | .obj props => columnOptionsFold ("String", []) props
        | _ => ("String", [])
  "  " ++ propertyName ++ " " ++ p.1
    ++ (if p.2.isEmpty then "" else " " ++ String.intercalate " " p.2) ++ "\n"

/-- Relation target-type resolution (lines 270-296): a zero-argument arrow
whose body is a bare identifier, else the field's own declared type
reference, else the `Unknown` placeholder. -/
def relationTarget (decoratorArgs : ExprList) (tyAnn : Option TSType) : String :=
  let t : String :=
    match decoratorArgs with
    | .cons (.arrow (.ident n)) _ => n
    | .cons _ _ => ""
    | .nil =>
        match tyAnn with
        | some (.ref n _) => n
        | _ => ""
  if t == "" then "Unknown" else t

/-- The relation-kind switch (lines 298-317): renders the relation field
line (and, for `ManyToOne` only, the synthesized foreign-key line). -/
def relationFragment (decoratorName className fieldName targetType : String) : String :=
  match decoratorName with
  | "OneToOne" =>
      "  " ++ fieldName ++ " " ++ targetType ++ "? @relation(\"" ++ className
        ++ "To" ++ targetType ++ "\")\n"
  | "ManyToOne" =>
      "  " ++ fieldName ++ " " ++ targetType ++ " @relation(\"" ++ fieldName
        ++ "Relation\")\n"
        ++ "  " ++ fieldName ++ "Id Int\n"
  | "OneToMany" =>
      "  " ++ fieldName ++ " " ++ targetType ++ "[] @relation(\"" ++ fieldName
        ++ "Relation\")\n"
  | "ManyToMany" =>
      "  " ++ fieldName ++ " " ++ targetType ++ "[] @relation(\"" ++ className
        ++ "To" ++ targetType ++ "\")\n"
  | _ => ""

/-- The decorator switch of the field walk (lines 154-319). -/
def decoratorFragment (className : String) (property : ClassProp)
    (decoratorName : String) (decoratorArgs : ExprList) : String :=
  match decoratorName with
  | "PrimaryGeneratedColumn" => primaryGeneratedColumnFragment property.name decoratorArgs
  | "PrimaryColumn" =>
      "  " ++ property.name ++ " " ++ extractTypeFromProperty property.typeAnn ++ " @id\n"
  | "Column" => columnFragment property.name decoratorArgs property.typeAnn
  | "CreateDateColumn" => "  " ++ property.name ++ " DateTime @default(now())\n"
  | "UpdateDateColumn" => "  " ++ property.name ++ " DateTime @updatedAt\n"
  | "DeleteDateColumn" => "  " ++ property.name ++ " DateTime? @map(\"deleted_at\")\n"
  | "OneToOne" | "ManyToOne" | "OneToMany" | "ManyToMany" =>
      relationFragment decoratorName className property.name
        (relationTarget decoratorArgs property.typeAnn)
  | _ => ""

/-- All decorators found by `j(path).find(j.Decorator)` inside a class node,
in traversal order: class-level decorators first, then each property's. -/
def allDecorators (c : ClassDecl) : List (String × ExprList) :=
  c.decorators ++ (c.props.map (fun p => p.decorators)).flatten

/-- `@Entity` detection (lines 102-128): any decorator named `Entity`
anywhere inside the class node marks the class. -/
def isEntityClassDecl (c : ClassDecl) : Bool :=
  (allDecorators c).any (fun d => d.1 == "Entity")

/-- Table-name option extraction from one decorator (lines 112-124): a
string-literal first argument, or the last `name:` property of an
options-object first argument.  A `name:` property whose value is not a
string literal resets the option (its `.value` is `undefined` in JS). -/
def entityNameStep (acc : Option String) (d : String × ExprList) : Option String :=
  if d.1 == "Entity" then
    match d.2 with
    | .cons (.strLit s) _ => some s
    | .cons (.obj props) _ => propNameFold acc props
    | _ => acc
  else acc
where
  propNameFold : Option String → PropList → Option String
    | a, .nil => a
    | a, .cons k v tl =>
        if k == "name" then
          propNameFold (match v with | .strLit s => some s | _ => none) tl
        else propNameFold a tl

/-- `tableName` (line 132): the extracted option, with JS falsiness — an
absent or empty-string option falls back to the lower-cased class name. -/
def entityTableName (c : ClassDecl) : String :=
  match (allDecorators c).foldl entityNameStep none with
  | some s => if s == "" then strToLower c.name else s
  | none => strToLower c.name

/-- Fragments contributed by one class property (lines 137-321): properties
without decorators are skipped; every decorator of a property runs through
the switch. -/
def propFragments (className : String) (p : ClassProp) : String :=
  if p.decorators.isEmpty then ""
  else p.decorators.foldl (fun acc d => acc ++ decoratorFragment className p d.1 d.2) ""

/-- `modelDefinition` for one entity class (lines 130-324). -/
def buildModelDefinition (c : ClassDecl) : String :=
  "model " ++ c.name ++ " \x7b\n"
    ++ c.props.foldl (fun acc p => acc ++ propFragments c.name p) ""
    ++ "\n  @@map(\"" ++ entityTableName c ++ "\")\n\x7d\n"

/-- The advisory comment inserted before each processed entity class
(lines 330-334). -/
def entityClassComment : String :=
  " The TypeORM entity below should be replaced with the Prisma Client. Use the Prisma schema generated by `npx prisma db pull` instead."

/-- Annotation of one statement by `transformEntityClasses`. -/
def annotateEntity (ls : LStmt) : LStmt :=
  match ls.stmt with
  | .classDecl c =>
      if isEntityClassDecl c then ⟨ls.lead ++ [entityClassComment], ls.stmt⟩ else ls
  | _ => ls

/-- Whether a statement is an entity class (drives the `entities` flag). -/
def stmtIsEntity (ls : LStmt) : Bool :=
  match ls.stmt with
  | .classDecl c => isEntityClassDecl c
  | _ => false

/-- `transformEntityClasses` (lines 84-339) as a tree transformation:
inserts the advisory comment before every entity class and reports the
`entities` flag.  (The rendered model strings go to the `prismaModels`
side channel, collected by `collectPrismaModels` below.) -/
def transformEntityClasses (t : File) : File × Bool :=
  (⟨t.body.map annotateEntity⟩, t.body.any stmtIsEntity)

/-- The `prismaModels` side channel (line 327): model definitions keyed by
class name, in first-discovered order. -/
def collectPrismaModels (t : File) : List (String × String) :=
  t.body.filterMap fun ls =>
    match ls.stmt with
    | .classDecl c =>
        if isEntityClassDecl c then some (c.name, buildModelDefinition c) else none
    | _ => none

/-! ## Context Resolver (`getModelNameFromContext`, lines 780-857) -/

/-- The `/(.+)(Service|Controller|Repository)$/` match (lines 793-799).  The
three suffixes end in distinct characters, so at most one applies; `(.+)`
requires a non-empty base. -/
def suffixBase (s : String) : Option String :=
  if strEndsWith s "Service" && strLength s > 7 then some (strDropRight s 7)
  else if strEndsWith s "Controller" && strLength s > 10 then some (strDropRight s 10)
  else if strEndsWith s "Repository" && strLength s > 10 then some (strDropRight s 10)
  else none

/-- Generic-parameter lookup on the first `repository` property carrying a
type annotation (lines 824-850): the annotation must be
`Repository<T>` with `T` a type reference; returns `T`'s name. -/
def repoGenericOf (props : List ClassProp) : Option String :=
  match props.find? (fun p => p.name == "repository" && p.typeAnn.isSome) with
  | some p =>
      match p.typeAnn with
      | some (.ref "Repository" (.cons (.ref n _) _)) => some n
      | _ => none
  | none => none

/-- The class table used by the resolver's second heuristic: the codemod
re-finds the enclosing class in `root` by name, taking the first class with
that name (lines 819-821). -/
def classTable (t : File) : List (String × List ClassProp) :=
  t.body.filterMap fun ls =>
    match ls.stmt with
    | .classDecl c => some (c.name, c.props)
    | _ => none

/-- `getModelNameFromContext` (lines 780-857): first the enclosing-class
suffix heuristic, then — only for a `this.repository.…` callee — the
`Repository<T>` generic of the class's `repository` property. -/
def getModelNameFromContext (lk : List (String × List ClassProp))
    (className : Option String) (callee : Expr) : Option String :=
  match className with
  | none => none
  | some cn =>
      match suffixBase cn with
      | some base => some base
      | none =>
          match callee with
          | .member (.member .thisE "repository") _ =>
              match lk.find? (fun p => p.1 == cn) with
              | some p => repoGenericOf p.2
              | none => none
          | _ => none

/-! ## Call-Site Rewriter (`transformRepositoryUsage`, lines 379-687) -/

/-- The advisory comment of the `save` case (lines 511-515). -/
def saveNoteComment : String :=
  " NOTE: TypeORM `save` could be either create or update. Verify correct behavior."

/-- The TODO marker of the `createQueryBuilder` case (lines 650-654). -/
def qbTodoComment : String :=
  " TODO: Replace TypeORM query builder with Prisma equivalent - manual conversion needed"

/-- The illustrative before/after block of the `createQueryBuilder` case
(lines 656-678). -/
def qbExampleComment : String :=
  "\n Example Prisma replacement for query builder:\n \n TypeORM:\n const users = await this.repository\n   .createQueryBuilder(\x27user\x27)\n   .leftJoinAndSelect(\x27user.profile\x27, \x27profile\x27)\n   .where(\x27user.isActive = :isActive\x27, \x7b isActive: true \x7d)\n   .getMany();\n \n Prisma:\n const users = await this.prisma.user.findMany(\x7b\n   where: \x7b\n     isActive: true\n   \x7d,\n   include: \x7b\n     profile: true\n   \x7d\n \x7d);\n"

/-- Whether an AST node has a defined `.value` in the Babel sense: only
literal nodes carry one (`prop.value.value !== undefined`, line 529). -/
def hasDefinedValue : Expr → Bool
  | .numLit _ => true
  | .strLit _ => true
  | .boolLit _ => true
  | _ => false

/-- The option keys passed through by the `findOne` transform
(lines 704-717). -/
def isFindOneOptionKey (k : String) : Bool :=
  k == "relations" || k == "select" || k == "order" || k == "skip" || k == "take"

/-- Renaming of the first `relations` property to `include`
(`transformRelationsToInclude`'s `find` + key replacement, lines 761-767). -/
def renameFirstRelations : PropList → PropList
  | .nil => .nil
  | .cons k v tl =>
      if k == "relations" then .cons "include" v tl
      else .cons k v (renameFirstRelations tl)

/-- `transformRelationsToInclude` (lines 758-778): non-objects are left
alone; otherwise the first `relations` property is renamed to `include`
(the nested-object walk on lines 770-776 is a no-op). -/
def transformRelationsToInclude (options : Expr) : Expr :=
  match options with
  | .obj props => .obj (renameFirstRelations props)
  | e => e

/-- `transformFindOneArguments` (lines 690-727). -/
def transformFindOneArguments (args : ExprList) : ExprList :=
  match args with
  | .nil => .nil
  | .cons firstArg rest =>
      match firstArg with
      | .obj props =>
          let props1 :=
            if props.anyP (fun k _ => k == "where") then props
            else
              let criteria := props.filterP (fun k _ => !isFindOneOptionKey k)
              if criteria == .nil then props
              else
                PropList.append (props.filterP (fun k _ => isFindOneOptionKey k))
                  (.cons "where" (.obj criteria) .nil)
          .cons (transformRelationsToInclude (.obj props1)) rest
      | _ => args

/-- `transformDeleteArguments` (lines 730-755). -/
def transformDeleteArguments (args : ExprList) : ExprList :=
  match args with
  | .nil => .nil
  | .cons firstArg rest =>
      match firstArg with
      | .numLit _ | .strLit _ | .ident _ =>
          .cons (.obj (.cons "where" (.obj (.cons "id" firstArg .nil)) .nil)) rest
      | .obj _ => .cons (.obj (.cons "where" firstArg .nil)) rest
      | _ => args

/-- The argument wrap of `findOneBy` / `findBy` (lines 479-500): the first
argument, when present, is wrapped as `{where: arg}`. -/
def wrapFirstInWhere (args : ExprList) : ExprList :=
  match args with
  | .nil => .nil
  | .cons a rest => .cons (.obj (.cons "where" a .nil)) rest

/-- The `update` argument transform (lines 588-605): two positional
arguments become one `{where: {id}, data}` object (replacing the whole
argument list); fewer than two arguments are left alone. -/
def updateArgsTransform (args : ExprList) : ExprList :=
  match args with
  | .cons idArg (.cons dataArg _) =>
      .cons (.obj (.cons "where" (.obj (.cons "id" idArg .nil))
        (.cons "data" dataArg .nil))) .nil
  | _ => args

/-- The `count` argument transform (lines 629-643): an object first
argument lacking a `where` key is wrapped as `{where: arg}`. -/
def countArgsTransform (args : ExprList) : ExprList :=
  match args with
  | .cons (.obj props) rest =>
      if props.anyP (fun k _ => k == "where") then args
      else .cons (.obj (.cons "where" (.obj props) .nil)) rest
  | _ => args

/-- The `save` heuristic's id detection (lines 519-535): a single
object-literal argument with some property keyed `id` whose value is not
the null literal and has a defined `.value`. -/
def saveHasIdProperty (args : ExprList) : Bool :=
  match args with
  | .cons (.obj props) .nil =>
      props.anyP (fun k v => k == "id" && !(v == Expr.nullLit) && hasDefinedValue v)
  | _ => false

/-- The `save` case (lines 503-578), after the receiver rewrite: returns
the rewritten call and the advisory comment. -/
def saveTransform (recv : Expr) (args : ExprList) : Expr × List String :=
  if saveHasIdProperty args then
    match args with
    | .cons (.obj props) rest =>
        let idValue := (props.firstVal? (fun k => k == "id")).getD .nullLit
        let dataProps := props.removeFirst (fun k => k == "id")
        (.call (.member recv "update")
          (.cons (.obj (.cons "where" (.obj (.cons "id" idValue .nil))
            (.cons "data" (.obj dataProps) .nil))) rest), [saveNoteComment])
    | _ => (.call (.member recv "update") args, [saveNoteComment])
  else
    let args1 :=
      match args with
      | .cons (.obj props) .nil => .cons (.obj (.cons "data" (.obj props) .nil)) .nil
      | _ => args
    (.call (.member recv "create") args1, [saveNoteComment])

/-- The rewrite-rule switch (lines 449-682) applied to one matched
repository call: `m` is the resolved model name (already defaulted to
`model`), `origCallee` the original callee, `methodName` its method, and
`args` the (already visited) argument list.  Returns the new call and the
advisory comments inserted before it. -/
def applyRepoRule (m : String) (origCallee : Expr) (methodName : String)
    (args : ExprList) : Expr × List String :=
  let recv : Expr := .member (.member .thisE "prisma") m
  match methodName with
  | "find" => (.call (.member recv "findMany") args, [])
  | "findOne" => (.call (.member recv "findUnique") (transformFindOneArguments args), [])
  | "findOneBy" => (.call (.member recv "findUnique") (wrapFirstInWhere args), [])
  | "findBy" => (.call (.member recv "findMany") (wrapFirstInWhere args), [])
  | "save" => saveTransform recv args
  | "update" => (.call (.member recv "update") (updateArgsTransform args), [])
  | "delete" => (.call (.member recv "delete") (transformDeleteArguments args), [])
  | "remove" => (.call (.member recv "delete") (transformDeleteArguments args), [])
  | "count" => (.call (.member recv "count") (countArgsTransform args), [])
  | "createQueryBuilder" =>
      (.call origCallee args, [qbTodoComment, qbExampleComment])
  | _ => (.call origCallee args, [])

mutual

/-- The call-site walk (lines 435-686) as a bottom-up pass: children are
visited, then a call whose callee is a member access on a member named
`repository` is rewritten via the rule switch.  Returns the rewritten
expression, the advisory comments inserted at this site, and whether any
repository call was matched (each match sets `fileChanged.services`,
line 684). -/
def rewriteExpr (lk : List (String × List ClassProp)) (cn : Option String) :
    Expr → Expr × List String × Bool
  | .call c args =>
      let rc := rewriteExpr lk cn c
      let ra := rewriteExprList lk cn args
      match rc.1 with
      | .member (.member o "repository") methodName =>
          let callee1 : Expr := .member (.member o "repository") methodName
          let m := (getModelNameFromContext lk cn callee1).getD "model"
          let r := applyRepoRule m callee1 methodName ra.1
          (r.1, rc.2.1 ++ ra.2.1 ++ r.2, true)
      | c1 => (.call c1 ra.1, rc.2.1 ++ ra.2.1, rc.2.2 || ra.2.2)
  | .member o p =>
      let ro := rewriteExpr lk cn o
      (.member ro.1 p, ro.2.1, ro.2.2)
  | .arrow b =>
      let rb := rewriteExpr lk cn b
      (.arrow rb.1, rb.2.1, rb.2.2)
  | .obj props =>
      let rp := rewritePropList lk cn props
      (.obj rp.1, rp.2.1, rp.2.2)
  | e => (e, [], false)

/-- `rewriteExpr` over argument lists. -/
def rewriteExprList (lk : List (String × List ClassProp)) (cn : Option String) :
    ExprList → ExprList × List String × Bool
  | .nil => (.nil, [], false)
  | .cons e tl =>
      let re := rewriteExpr lk cn e
      let rt := rewriteExprList lk cn tl
      (.cons re.1 rt.1, re.2.1 ++ rt.2.1, re.2.2 || rt.2.2)

/-- `rewriteExpr` over property lists. -/
def rewritePropList (lk : List (String × List ClassProp)) (cn : Option String) :
    PropList → PropList × List String × Bool
  | .nil => (.nil, [], false)
  | .cons k v tl =>
      let rv := rewriteExpr lk cn v
      let rt := rewritePropList lk cn tl
      (.cons k rv.1 rt.1, rv.2.1 ++ rt.2.1, rv.2.2 || rt.2.2)

end

/-- The constructor-injection rewrite (lines 382-432): a
`TSParameterProperty` whose annotation is a `Repository` type reference is
replaced by a plain `private prisma` parameter annotated `PrismaService`. -/
def rewriteCtorParam (p : CtorParam) : CtorParam × Bool :=
  match p with
  | .prop _ (some (.ref "Repository" _)) =>
      (.plain "private prisma" (some (.ref "PrismaService" .nil)), true)
  | _ => (p, false)

/-- `rewriteCtorParam` over a parameter list, reporting
`hasRepositoryParam`. -/
def rewriteCtorParams (ps : List CtorParam) : List CtorParam × Bool :=
  ps.foldr (fun p acc => let r := rewriteCtorParam p; (r.1 :: acc.1, r.2 || acc.2)) ([], false)

/-- Rewriting of a decorator list's argument expressions (the call walk
visits every call in the tree, including decorator arguments). -/
def rewriteDecorators (lk : List (String × List ClassProp)) (cn : Option String) :
    List (String × ExprList) → List (String × ExprList) × List String × Bool
  | [] => ([], [], false)
  | d :: rest =>
      let ra := rewriteExprList lk cn d.2
      let rr := rewriteDecorators lk cn rest
      ((d.1, ra.1) :: rr.1, ra.2.1 ++ rr.2.1, ra.2.2 || rr.2.2)

/-- Rewriting of each property's decorator arguments. -/
def rewritePropsDecorators (lk : List (String × List ClassProp)) (cn : Option String) :
    List ClassProp → List ClassProp × List String × Bool
  | [] => ([], [], false)
  | p :: rest =>
      let r := rewriteDecorators lk cn p.decorators
      let rr := rewritePropsDecorators lk cn rest
      ({ p with decorators := r.1 } :: rr.1, r.2.1 ++ rr.2.1, r.2.2 || rr.2.2)

/-- Rewriting of a list of method-body expressions. -/
def rewriteBodyExprs (lk : List (String × List ClassProp)) (cn : Option String) :
    List Expr → List Expr × List String × Bool
  | [] => ([], [], false)
  | e :: rest =>
      let r := rewriteExpr lk cn e
      let rr := rewriteBodyExprs lk cn rest
      (r.1 :: rr.1, r.2.1 ++ rr.2.1, r.2.2 || rr.2.2)

/-- Rewriting of all expressions inside one class declaration. -/
def rewriteClassExprs (lk : List (String × List ClassProp)) (c : ClassDecl) :
    ClassDecl × List String × Bool :=
  let cn : Option String := some c.name
  let rd := rewriteDecorators lk cn c.decorators
  let rp := rewritePropsDecorators lk cn c.props
  let rb := rewriteBodyExprs lk cn c.bodyExprs
  ({ c with decorators := rd.1, props := rp.1, bodyExprs := rb.1 },
    rd.2.1 ++ rp.2.1 ++ rb.2.1, rd.2.2 || rp.2.2 || rb.2.2)

/-- The constructor-injection replacement applied to one statement
(lines 381-432, tree effect). -/
def rewriteCtorStmt (ls : LStmt) : LStmt :=
  match ls.stmt with
  | .classDecl c =>
      LStmt.mk ls.lead (.classDecl { c with ctorParams := (rewriteCtorParams c.ctorParams).1 })
  | _ => ls

/-- The constructor-injection replacement's `services` contribution of one
statement (`hasRepositoryParam`, lines 428-431). -/
def ctorStmtFlag (ls : LStmt) : Bool :=
  match ls.stmt with
  | .classDecl c => (rewriteCtorParams c.ctorParams).2
  | _ => false

/-- The repository method-call walk applied to one statement: advisory
comments join the statement's leading comments. -/
def rewriteCallStmt (lk : List (String × List ClassProp)) (ls : LStmt) : LStmt × Bool :=
  match ls.stmt with
  | .exprStmt e =>
      let r := rewriteExpr lk none e
      (LStmt.mk (ls.lead ++ r.2.1) (.exprStmt r.1), r.2.2)
  | .classDecl c =>
      let r := rewriteClassExprs lk c
      (LStmt.mk (ls.lead ++ r.2.1) (.classDecl r.1), r.2.2)
  | _ => (ls, false)

/-- `transformRepositoryUsage` (lines 379-687): first the
constructor-injection replacement (lines 381-432), then the repository
method-call walk (lines 434-686).  Returns the rewritten file and the
`services` flag. -/
def transformRepositoryUsage (t : File) : File × Bool :=
  let lk := classTable t
  let bodyA := t.body.map rewriteCtorStmt
  let flagA := t.body.any ctorStmtFlag
  let results := bodyA.map (rewriteCallStmt lk)
  (⟨results.map (fun r => r.1)⟩, flagA || results.any (fun r => r.2))

/-! ## Import/Registration Rewriter (`transformModuleImports`, lines 859-1027) -/

/-- `specifiers.some(s => s.type === 'ImportSpecifier' && s.imported.name === n)`. -/
def hasNamedSpecifier (n : String) (ss : List ImportSpecifier) : Bool :=
  ss.any fun s =>
    match s with
    | .named m => m == n
    | .other _ => false

/-- The entity/schema-decorator specifier names dropped from a `typeorm`
dependency declaration (lines 909-923). -/
def entityDecoratorNames : List String :=
  ["Entity", "Column", "PrimaryColumn", "PrimaryGeneratedColumn",
   "CreateDateColumn", "UpdateDateColumn", "DeleteDateColumn",
   "OneToOne", "ManyToOne", "OneToMany", "ManyToMany",
   "JoinColumn", "JoinTable"]

/-- `specifiers.filter(s => !(s.type === 'ImportSpecifier' && names.includes(s.imported.name)))`. -/
def filterOutNamed (names : List String) (ss : List ImportSpecifier) : List ImportSpecifier :=
  ss.filter fun s =>
    match s with
    | .named m => !names.contains m
    | .other _ => true

/-- The `/typeorm\/repository/i` test (line 934). -/
def matchesTypeormRepositoryPath (s : String) : Bool :=
  containsSubstr (strToLower s) "typeorm/repository"

/-- The advisory comment attached to entity-path imports (lines 941-945). -/
def entityImportTodoComment : String :=
  " TODO: Review entity import - might need to use Prisma types instead"

/-- The `PrismaService` import unshifted when a `Repository` specifier is
found (lines 880-888). -/
def prismaServiceImportStmt : LStmt :=
  ⟨[], .importDecl ⟨"./prisma.service", [.named "PrismaService"]⟩⟩

/-- The `PrismaModule` import unshifted by `addPrismaModuleImport`
(lines 1008-1027). -/
def prismaModuleImportStmt : LStmt :=
  ⟨[], .importDecl ⟨"./prisma/prisma.module", [.named "PrismaModule"]⟩⟩

/-- Processing of one import declaration (lines 862-947).  Returns the kept
statement (`none` when the declaration is removed), the statements to
unshift at the top of the file, and this declaration's contribution to the
`modules` flag.  Note the source quirk on lines 891/905: both filters read
the original `specifiers` array, so when `Repository` and `Entity` both
occur the second assignment overwrites the first and only the
entity-decorator names are dropped. -/
def processImportStmt (ls : LStmt) (d : ImportDecl) : Option LStmt × List LStmt × Bool :=
  if d.source == "typeorm" then
    let hasRepo := hasNamedSpecifier "Repository" d.specifiers
    let hasEntity := hasNamedSpecifier "Entity" d.specifiers
    let specs1 :=
      if hasEntity then filterOutNamed entityDecoratorNames d.specifiers
      else if hasRepo then filterOutNamed ["Repository", "getRepository"] d.specifiers
      else d.specifiers
    let pre := if hasRepo then [prismaServiceImportStmt] else []
    let flag := hasRepo || hasEntity
    if specs1.isEmpty then (none, pre, flag)
    else (some ⟨ls.lead, .importDecl ⟨d.source, specs1⟩⟩, pre, flag)
  else if matchesTypeormRepositoryPath d.source then
    (none, [], true)
  else if strEndsWith d.source ".entity" || containsSubstr d.source "/entities/" then
    (some ⟨ls.lead ++ [entityImportTodoComment], ls.stmt⟩, [], false)
  else
    (some ls, [], false)

/-- The import-declaration pass over the whole body, in document order.
Returns (processed body, unshifted statements in processing order, flag). -/
def moduleImportsPhase1 : List LStmt → List LStmt × List LStmt × Bool
  | [] => ([], [], false)
  | ls :: rest =>
      let r := moduleImportsPhase1 rest
      match ls.stmt with
      | .importDecl d =>
          let p := processImportStmt ls d
          ((match p.1 with | some l => [l] | none => []) ++ r.1,
            p.2.1 ++ r.2.1, p.2.2 || r.2.2)
      | _ => (ls :: r.1, r.2.1, r.2.2)

mutual

/-- The `TypeOrmModule.forRoot(...)` rewrite (lines 978-1004): the matched
call becomes `PrismaModule()` with cleared arguments.  (The `forFeature`
finder on lines 950-976 filters for calls whose *callee* is the bare
identifier `forFeature` with a `MemberExpression` parent — a shape that the
member-call form `TypeOrmModule.forFeature([...])` never has, so that
branch matches nothing representable here.) -/
def forRootExpr : Expr → Expr × Bool
  | .call c args =>
      match c with
      | .member (.ident "TypeOrmModule") "forRoot" =>
          (.call (.ident "PrismaModule") .nil, true)
      | _ =>
          let rc := forRootExpr c
          let ra := forRootExprList args
          (.call rc.1 ra.1, rc.2 || ra.2)
  | .member o p =>
      let ro := forRootExpr o
      (.member ro.1 p, ro.2)
  | .arrow b =>
      let rb := forRootExpr b
      (.arrow rb.1, rb.2)
  | .obj props =>
      let rp := forRootPropList props
      (.obj rp.1, rp.2)
  | e => (e, false)

/-- `forRootExpr` over argument lists. -/
def forRootExprList : ExprList → ExprList × Bool
  | .nil => (.nil, false)
  | .cons e tl =>
      let re := forRootExpr e
      let rt := forRootExprList tl
      (.cons re.1 rt.1, re.2 || rt.2)

/-- `forRootExpr` over property lists. -/
def forRootPropList : PropList → PropList × Bool
  | .nil => (.nil, false)
  | .cons k v tl =>
      let rv := forRootExpr v
      let rt := forRootPropList tl
      (.cons k rv.1 rt.1, rv.2 || rt.2)

end

/-- `forRootExpr` over every expression position of a statement list. -/
def forRootBody : List LStmt → List LStmt × Bool
  | [] => ([], false)
  | ls :: rest =>
      let r := forRootBody rest
      match ls.stmt with
      | .exprStmt e =>
          let re := forRootExpr e
          (⟨ls.lead, .exprStmt re.1⟩ :: r.1, re.2 || r.2)
      | .classDecl c =>
          let rd : List (String × ExprList) × Bool :=
            c.decorators.foldr
              (fun d acc =>
                let ra := forRootExprList d.2
                ((d.1, ra.1) :: acc.1, ra.2 || acc.2)) ([], false)
          let rp : List ClassProp × Bool :=
            c.props.foldr
              (fun p acc =>
                let ra : List (String × ExprList) × Bool :=
                  p.decorators.foldr
                    (fun d acc2 =>
                      let rr := forRootExprList d.2
                      ((d.1, rr.1) :: acc2.1, rr.2 || acc2.2)) ([], false)
                ({ p with decorators := ra.1 } :: acc.1, ra.2 || acc.2)) ([], false)
          let rb : List Expr × Bool :=
            c.bodyExprs.foldr
              (fun e acc =>
                let re := forRootExpr e
                (re.1 :: acc.1, re.2 || acc.2)) ([], false)
          (⟨ls.lead, .classDecl { c with decorators := rd.1, props := rp.1, bodyExprs := rb.1 }⟩ :: r.1,
            rd.2 || rp.2 || rb.2 || r.2)
      | _ => (ls :: r.1, r.2)

/-- The existence check of `addPrismaModuleImport` (lines 1010-1016). -/
def isPrismaModuleImport (ls : LStmt) : Bool :=
  match ls.stmt with
  | .importDecl d => d.source == "./prisma/prisma.module"
  | _ => false

/-- `transformModuleImports` (lines 859-1005): the import-declaration pass,
then the `TypeOrmModule.forRoot` registration rewrite with its idempotent
`PrismaModule` import insertion.  Each unshift prepends at the top of the
file, so statements unshifted later end up first. -/
def transformModuleImports (t : File) : File × Bool :=
  let ph1 := moduleImportsPhase1 t.body
  let body1 := ph1.2.1.reverse ++ ph1.1
  let r2 := forRootBody body1
  let body2 :=
    if r2.2 && !(r2.1.any isPrismaModuleImport) then prismaModuleImportStmt :: r2.1
    else r2.1
  (⟨body2⟩, ph1.2.2 || r2.2)

/-! ## Change Tracker & Output Assembler (lines 66-81, 1029-1081) -/

mutual

/-- The external printer collaborator (`root.toSource()`), modelled as a
simple total rendering of the tree. -/
def Expr.print : Expr → String
  | .numLit n => toString n
  | .strLit s => "\x27" ++ s ++ "\x27"
  | .boolLit b => toString b
  | .nullLit => "null"
  | .ident n => n
  | .thisE => "this"
  | .member o p => Expr.print o ++ "." ++ p
  | .arrow b => "() => " ++ Expr.print b
  | .call c a => Expr.print c ++ "(" ++ ExprList.print a ++ ")"
  | .obj ps => "\x7b" ++ PropList.print ps ++ "\x7d"

/-- Comma-separated rendering of an argument list. -/
def ExprList.print : ExprList → String
  | .nil => ""
  | .cons e .nil => Expr.print e
  | .cons e tl => Expr.print e ++ ", " ++ ExprList.print tl

/-- Comma-separated rendering of a property list. -/
def PropList.print : PropList → String
  | .nil => ""
  | .cons k v .nil => k ++ ": " ++ Expr.print v
  | .cons k v tl => k ++ ": " ++ Expr.print v ++ ", " ++ PropList.print tl

end

/-- Rendering of one import specifier. -/
def ImportSpecifier.print : ImportSpecifier → String
  | .named n => n
  | .other n => n

/-- Rendering of one statement. -/
def Stmt.print : Stmt → String
  | .importDecl d =>
      "import \x7b " ++ String.intercalate ", " (d.specifiers.map ImportSpecifier.print)
        ++ " \x7d from \x27" ++ d.source ++ "\x27;"
  | .classDecl c =>
      String.intercalate "\n" (c.decorators.map (fun d => "@" ++ d.1 ++ "(" ++ ExprList.print d.2 ++ ")"))
        ++ "\nclass " ++ c.name ++ " \x7b "
        ++ String.intercalate "; " (c.bodyExprs.map Expr.print) ++ " \x7d"
  | .exprStmt e => Expr.print e ++ ";"

/-- Rendering of a statement with its leading comments. -/
def LStmt.print (ls : LStmt) : String :=
  String.intercalate "" (ls.lead.map (fun s => "//" ++ s ++ "\n")) ++ ls.stmt.print

/-- `root.toSource()`: the serialization of the (possibly modified) tree. -/
def toSource (t : File) : String :=
  String.intercalate "\n" (t.body.map LStmt.print)

/-- The three stages in their fixed order (lines 1030-1032), accumulating
the `fileChanged` record.  `repositories` is initialized `false` (line 71)
and no stage assigns it. -/
def runStages (t : File) : File × ChangeFlags :=
  let r1 := transformEntityClasses t
  let r2 := transformRepositoryUsage r1.1
  let r3 := transformModuleImports r2.1
  (r3.1, ⟨r1.2, false, r3.2, r2.2⟩)

/-- Whether any change flag is set (the disjunction on lines 1069-1074). -/
def anyFlag (f : ChangeFlags) : Bool :=
  f.entities || f.repositories || f.modules || f.services

/-- The exported transform (lines 66-1081): run the stages on the parsed
tree and return either the serialized modified tree or the original source
string, by the change flags. -/
def transform (source : String) (t : File) : String :=
  let r := runStages t
  if anyFlag r.2 then toSource r.1 else source

/-- The tree-level effect of one whole application of the codemod. -/
def transformTree (t : File) : File :=
  (runStages t).1

/-! ## Claim-side definitions

Definitions in this section follow the wording of the specification claims;
the theorems below compare them with the source-embedded functions above. -/

/-- The relation name the spec asserts (claim C4):
`{OwningClass}To{Target}` for OneToOne/ManyToMany, `{fieldName}Relation` for
ManyToOne/OneToMany. -/
def claimRelationName (kind ownerClass fieldName target : String) : String :=
  if kind == "OneToOne" || kind == "ManyToMany" then ownerClass ++ "To" ++ target
  else fieldName ++ "Relation"

/-- The delete-argument shape the spec asserts (claim C6): numeric literal,
string literal or identifier becomes `{where: {id: arg}}`; an object literal
becomes `{where: arg}`; anything else is unchanged. -/
def claimDeleteArg (a : Expr) : Expr :=
  match a with
  | .numLit _ | .strLit _ | .ident _ =>
      .obj (.cons "where" (.obj (.cons "id" a .nil)) .nil)
  | .obj _ => .obj (.cons "where" a .nil)
  | _ => a

/-- The `findOne` output property list the spec asserts (claim C5): the
option properties pass through (with the first `relations` renamed to
`include`) and the remaining properties are gathered, in order, into a
trailing `where` object. -/
def claimFindOneProps (props : PropList) : PropList :=
  let options := props.filterP (fun k _ => isFindOneOptionKey k)
  let criteria := props.filterP (fun k _ => !isFindOneOptionKey k)
  PropList.append (renameFirstRelations options)
    (if criteria == .nil then .nil else .cons "where" (.obj criteria) .nil)

/-- The nine method names of the rewrite-rule table that rewrite the callee
(all rows except the deliberately untouched `createQueryBuilder`). -/
def rewritingMethods : List String :=
  ["find", "findOne", "findOneBy", "findBy", "save", "update", "delete", "remove", "count"]

/-- Whether a call expression has the matched repository shape: its callee
is a member access on a member named `repository` (lines 440-444). -/
def isRepoCallShape : Expr → Bool
  | .call (.member (.member _ p) _) _ => p == "repository"
  | _ => false

/-- A concrete file containing nothing the codemod matches. -/
def emptyFile : File := ⟨[]⟩

/-- A concrete file containing one `@Entity()`-decorated class and nothing
else. -/
def entityOnlyFile : File :=
  ⟨[⟨[], .classDecl ⟨"Foo", [("Entity", .nil)], [], [], []⟩⟩]⟩

/-- The `save` heuristic's per-value condition as worded by the spec
(claim C3): the value is not the null literal and is AST-defined. -/
def isDefinedNonNullValue (v : Expr) : Bool :=
  !(v == Expr.nullLit) && hasDefinedValue v

/-- Whether an expression is a matched repository callee: a member access
on a member named `repository`. -/
def isRepoCalleeShape : Expr → Bool
  | .member (.member _ p) _ => p == "repository"
  | _ => false

mutual

/-- Whether an expression contains (or is) a call whose callee is a member
access on a member named `repository` (the shape of lines 440-444),
anywhere in the tree. -/
def containsRepoCall : Expr → Bool
  | .call c args => isRepoCalleeShape c || containsRepoCall c || containsRepoCallList args
  | .member o _ => containsRepoCall o
  | .arrow b => containsRepoCall b
  | .obj props => containsRepoCallProps props
  | _ => false

/-- `containsRepoCall` over argument lists. -/
def containsRepoCallList : ExprList → Bool
  | .nil => false
  | .cons e tl => containsRepoCall e || containsRepoCallList tl

/-- `containsRepoCall` over property lists. -/
def containsRepoCallProps : PropList → Bool
  | .nil => false
  | .cons _ v tl => containsRepoCall v || containsRepoCallProps tl

end

/-- `containsRepoCall` over every expression position of one statement. -/
def stmtContainsRepoCall (ls : LStmt) : Bool :=
  match ls.stmt with
  | .exprStmt e => containsRepoCall e
  | .classDecl c =>
      c.decorators.any (fun d => containsRepoCallList d.2)
        || c.props.any (fun p => p.decorators.any (fun d => containsRepoCallList d.2))
        || c.bodyExprs.any containsRepoCall
  | _ => false

/-- Whether a file contains a repository call anywhere. -/
def fileContainsRepoCall (t : File) : Bool :=
  t.body.any stmtContainsRepoCall

/-- A concrete file whose only statement is an entity-path import. -/
def entityImportFile : File :=
  ⟨[⟨[], .importDecl ⟨"./user.entity", [.named "User"]⟩⟩]⟩

/-- A concrete file whose only statement is a top-level repository call
with a method name outside the rewrite-rule table. -/
def unknownRepoCallFile : File :=
  ⟨[⟨[], .exprStmt (.call (.member (.member .thisE "repository") "exist") .nil)⟩]⟩

/-! ## Claim theorems -/

/-- C1: for every input file in which none of the four change flags is set
by any transformation stage, the transform returns the original source
string exactly; for every file in which at least one flag is set it returns
the serialization of the modified tree. -/
theorem c1_output_assembly (source : String) (t : File) :
    (anyFlag (runStages t).2 = false → transform source t = source) ∧
    (anyFlag (runStages t).2 = true → transform source t = toSource (runStages t).1) := by
  constructor <;> intro h <;> simp [transform, h]

/-- Witness for C1: a file with no matched pattern comes back verbatim; a
file with an entity class comes back serialized. -/
theorem c1_output_assembly_witness :
    transform "original source" emptyFile = "original source" ∧
    transform "original source" entityOnlyFile = toSource (runStages entityOnlyFile).1 :=
  ⟨(c1_output_assembly "original source" emptyFile).1 rfl,
   (c1_output_assembly "original source" entityOnlyFile).2 rfl⟩

/-- C10: the `repositories` change flag is initialized `false` and never set
by any stage, so the output decision reduces to the other three flags. -/
theorem c10_repositories_flag_unused (source : String) (t : File) :
    (runStages t).2.repositories = false ∧
    transform source t =
      (if (runStages t).2.entities || (runStages t).2.modules || (runStages t).2.services
        then toSource (runStages t).1 else source) := by
  refine ⟨rfl, ?_⟩
  simp [transform, anyFlag, runStages]

/-- C4: the relation name rendered in the model fragment is
`{OwningClass}To{Target}` for OneToOne/ManyToMany and `{fieldName}Relation`
for ManyToOne/OneToMany, and ManyToOne — and only ManyToOne, as the other
three equations show — additionally synthesizes the sibling scalar
foreign-key line `<fieldName>Id Int`. -/
theorem c4_relation_naming (cn fn tt : String) :
    relationFragment "OneToOne" cn fn tt =
        "  " ++ fn ++ " " ++ tt ++ "? @relation(\"" ++ claimRelationName "OneToOne" cn fn tt ++ "\")\n" ∧
    relationFragment "ManyToMany" cn fn tt =
        "  " ++ fn ++ " " ++ tt ++ "[] @relation(\"" ++ claimRelationName "ManyToMany" cn fn tt ++ "\")\n" ∧
    relationFragment "OneToMany" cn fn tt =
        "  " ++ fn ++ " " ++ tt ++ "[] @relation(\"" ++ claimRelationName "OneToMany" cn fn tt ++ "\")\n" ∧
    relationFragment "ManyToOne" cn fn tt =
        "  " ++ fn ++ " " ++ tt ++ " @relation(\"" ++ claimRelationName "ManyToOne" cn fn tt ++ "\")\n"
          ++ "  " ++ fn ++ "Id Int\n" := by
  refine ⟨?_, ?_, ?_, ?_⟩ <;>
    simp [relationFragment, claimRelationName, String.append_assoc]

/-- C7: the `createQueryBuilder` case leaves the callee and the arguments of
the call expression untouched and only produces the two leading advisory
comments (the TODO marker and the illustrative example). -/
theorem c7_query_builder_preserved (m : String) (o : Expr) (args : ExprList) :
    applyRepoRule m (.member (.member o "repository") "createQueryBuilder")
        "createQueryBuilder" args
      = (.call (.member (.member o "repository") "createQueryBuilder") args,
          [qbTodoComment, qbExampleComment]) := rfl

/-- C6: a repository `delete` or `remove` call is rewritten to `delete`,
with a scalar/identifier sole argument wrapped as `{where: {id: arg}}`, an
object sole argument wrapped as `{where: arg}`, and any other argument
shape left unchanged; no comment is inserted. -/
theorem c6_delete_rewrite (m : String) (origCallee : Expr) (methodName : String)
    (a : Expr) (h : methodName = "delete" ∨ methodName = "remove") :
    applyRepoRule m origCallee methodName (.cons a .nil)
      = (.call (.member (.member (.member .thisE "prisma") m) "delete")
          (.cons (claimDeleteArg a) .nil), []) := by
  rcases h with h | h <;> subst h <;> cases a <;> rfl

/-- Witness for C6: `repo.remove(1)` becomes `delete({where: {id: 1}})`. -/
theorem c6_delete_rewrite_witness :
    applyRepoRule "User" (.member (.member .thisE "repository") "remove") "remove"
        (.cons (.numLit 1) .nil)
      = (.call (.member (.member (.member .thisE "prisma") "User") "delete")
          (.cons (claimDeleteArg (.numLit 1)) .nil), []) :=
  c6_delete_rewrite "User" (.member (.member .thisE "repository") "remove") "remove"
    (.numLit 1) (Or.inr rfl)

/-! ## Helper lemmas -/

/-- Appending the empty property list is the identity. -/
theorem PropList.append_nil : ∀ (a : PropList), a.append .nil = a
  | .nil => rfl
  | .cons k v tl => by simp [PropList.append, PropList.append_nil tl]

/-- Renaming the first `relations` key commutes with appending a trailing
`where` property. -/
theorem renameFirstRelations_append_where :
    ∀ (a : PropList) (v : Expr),
      renameFirstRelations (a.append (.cons "where" v .nil))
        = (renameFirstRelations a).append (.cons "where" v .nil)
  | .nil, v => rfl
  | .cons k w tl, v => by
      by_cases h : (k == "relations") = true
      · simp [PropList.append, renameFirstRelations, h]
      · simp [PropList.append, renameFirstRelations, h,
          renameFirstRelations_append_where tl v]

/-- When the complement filter is empty, the filter keeps everything. -/
theorem PropList.filterP_all (f : String → Expr → Bool) :
    ∀ (props : PropList),
      props.filterP (fun k v => !f k v) = .nil → props.filterP f = props
  | .nil, _ => rfl
  | .cons k v tl, h => by
      by_cases hf : f k v = true
      · have h' : tl.filterP (fun k v => !f k v) = .nil := by
          simpa [PropList.filterP, hf] using h
        simp [PropList.filterP, hf, PropList.filterP_all f tl h']
      · simp [PropList.filterP, hf] at h

/-- C5: a `findOne` call with a sole object-literal argument lacking a
`where` key is rewritten to `findUnique`, its non-option properties are
gathered, in order, into a new `where` object, the option properties pass
through, and the first `relations` property is renamed to `include`. -/
theorem c5_findone_rewrite (m : String) (origCallee : Expr) (props : PropList)
    (h : props.anyP (fun k _ => k == "where") = false) :
    applyRepoRule m origCallee "findOne" (.cons (.obj props) .nil)
      = (.call (.member (.member (.member .thisE "prisma") m) "findUnique")
          (.cons (.obj (claimFindOneProps props)) .nil), []) := by
  by_cases hc : props.filterP (fun k _ => !isFindOneOptionKey k) = PropList.nil
  · have hopts : props.filterP (fun k _ => isFindOneOptionKey k) = props :=
      PropList.filterP_all _ props hc
    simp [applyRepoRule, transformFindOneArguments, h, hc, claimFindOneProps, hopts,
      transformRelationsToInclude, PropList.append_nil]
  · simp [applyRepoRule, transformFindOneArguments, h, hc, claimFindOneProps,
      transformRelationsToInclude, renameFirstRelations_append_where]

/-- Witness for C5: `findOne({id: 1, relations: {user: true}})` becomes
`findUnique({include: {user: true}, where: {id: 1}})`. -/
theorem c5_findone_rewrite_witness :
    applyRepoRule "User" (.member (.member .thisE "repository") "findOne") "findOne"
        (.cons (.obj (.cons "id" (.numLit 1)
          (.cons "relations" (.obj (.cons "user" (.boolLit true) .nil)) .nil))) .nil)
      = (.call (.member (.member (.member .thisE "prisma") "User") "findUnique")
          (.cons (.obj (claimFindOneProps (.cons "id" (.numLit 1)
            (.cons "relations" (.obj (.cons "user" (.boolLit true) .nil)) .nil)))) .nil), []) :=
  c5_findone_rewrite "User" (.member (.member .thisE "repository") "findOne")
    (.cons "id" (.numLit 1) (.cons "relations" (.obj (.cons "user" (.boolLit true) .nil)) .nil))
    (by decide)

/-- A contained pair forces a positive key count. -/
theorem PropList.countKey_pos_of_containsPair :
    ∀ (props : PropList) (key : String) (v : Expr),
      props.containsPair key v = true → 1 ≤ props.countKey key
  | .nil, key, v, h => by simp [PropList.containsPair] at h
  | .cons k w tl, key, v, h => by
      rw [PropList.containsPair, Bool.or_eq_true] at h
      rw [PropList.countKey]
      rcases h with h | h
      · rw [Bool.and_eq_true] at h
        simp [h.1]
      · have := PropList.countKey_pos_of_containsPair tl key v h
        omega

/-- With at most one `id` property, a contained `id : v` pair is the first
one, so `findIndex`-based extraction reads exactly `v`. -/
theorem PropList.firstVal_of_unique :
    ∀ (props : PropList) (v : Expr),
      props.countKey "id" ≤ 1 → props.containsPair "id" v = true →
      props.firstVal? (fun k => k == "id") = some v
  | .nil, v, _, h => by simp [PropList.containsPair] at h
  | .cons k w tl, v, hc, h => by
      rw [PropList.containsPair, Bool.or_eq_true] at h
      rw [PropList.countKey] at hc
      by_cases hk : (k == "id") = true
      · have htl0 : tl.countKey "id" = 0 := by simp [hk] at hc; omega
        rcases h with hh | hh
        · rw [Bool.and_eq_true] at hh
          have hw : w = v := by simpa using hh.2
          simp [PropList.firstVal?, hk, hw]
        · have := PropList.countKey_pos_of_containsPair tl "id" v hh
          omega
      · have hkf : (k == "id") = false := by simpa using hk
        rcases h with hh | hh
        · rw [Bool.and_eq_true] at hh
          rw [hh.1] at hkf
          cases hkf
        · have htl : tl.countKey "id" ≤ 1 := by simp [hkf] at hc; omega
          simp [PropList.firstVal?, hkf, PropList.firstVal_of_unique tl v htl hh]

/-- With no `id` key at all, filtering `id` out keeps everything. -/
theorem PropList.filterP_id_of_countKey_zero :
    ∀ (props : PropList) (key : String),
      props.countKey key = 0 → props.filterP (fun k _ => !(k == key)) = props
  | .nil, _, _ => rfl
  | .cons k w tl, key, h => by
      rw [PropList.countKey] at h
      by_cases hk : (k == key) = true
      · simp [hk] at h
      · have hkf : (k == key) = false := by simpa using hk
        have htl : tl.countKey key = 0 := by simp [hkf] at h; exact h
        simp [PropList.filterP, hkf, PropList.filterP_id_of_countKey_zero tl key htl]

/-- With at most one `id` property, removing the first `id` equals
filtering out every `id`. -/
theorem PropList.removeFirst_eq_filter_of_unique :
    ∀ (props : PropList),
      props.countKey "id" ≤ 1 →
      props.removeFirst (fun k => k == "id") = props.filterP (fun k _ => !(k == "id"))
  | .nil, _ => rfl
  | .cons k w tl, hc => by
      rw [PropList.countKey] at hc
      by_cases hk : (k == "id") = true
      · have htl0 : tl.countKey "id" = 0 := by simp [hk] at hc; omega
        simp [PropList.removeFirst, PropList.filterP, hk,
          PropList.filterP_id_of_countKey_zero tl "id" htl0]
      · have hkf : (k == "id") = false := by simpa using hk
        have htl : tl.countKey "id" ≤ 1 := by simp [hkf] at hc; omega
        simp [PropList.removeFirst, PropList.filterP, hkf,
          PropList.removeFirst_eq_filter_of_unique tl htl]

/-- A contained `id` pair with a defined non-null value makes the `save`
heuristic's scan succeed. -/
theorem PropList.anyP_id_of_containsPair :
    ∀ (props : PropList) (v : Expr),
      props.containsPair "id" v = true → isDefinedNonNullValue v = true →
      props.anyP (fun k w => k == "id" && !(w == Expr.nullLit) && hasDefinedValue w) = true
  | .nil, v, h, _ => by simp [PropList.containsPair] at h
  | .cons k w tl, v, h, hv => by
      rw [PropList.containsPair, Bool.or_eq_true] at h
      rw [PropList.anyP, Bool.or_eq_true]
      rcases h with hh | hh
      · left
        rw [Bool.and_eq_true] at hh
        have hw : w = v := by simpa using hh.2
        subst hw
        simp only [isDefinedNonNullValue, Bool.and_eq_true] at hv
        simp [hh.1, hv.1, hv.2]
      · exact Or.inr (PropList.anyP_id_of_containsPair tl v hh hv)

/-- C3 fails as stated: for `save({id: null, id: 5, name: 'x'})` — a legal
object literal with a duplicate key — the object has a non-null/defined
`id` property (the second one), but the code reads the `where` id from the
*first* `id` property (`null`) and removes only that one, leaving `id: 5`
inside `data`; the claimed update form is not produced. -/
theorem c3_save_counterexample :
    ¬ (applyRepoRule "model" (.member (.member .thisE "repository") "save") "save"
        (.cons (.obj (.cons "id" .nullLit
          (.cons "id" (.numLit 5) (.cons "name" (.strLit "x") .nil)))) .nil)
      = (.call (.member (.member (.member .thisE "prisma") "model") "update")
          (.cons (.obj (.cons "where" (.obj (.cons "id" (.numLit 5) .nil))
            (.cons "data" (.obj (.cons "name" (.strLit "x") .nil)) .nil))) .nil),
          [saveNoteComment])) := by decide

/-- C3 amended: for a `save` call whose single argument is an object
literal with at most one property keyed `id`: if that property exists with
a non-null/defined value `v`, the call becomes the update form
`{where: {id: v}, data: rest-of-object-minus-id}`; otherwise the create
form `{data: object}`; in both cases the advisory `save` comment is
inserted. -/
theorem c3_save_amended (m : String) (origCallee : Expr) (props : PropList) (v : Expr)
    (hcount : props.countKey "id" ≤ 1) :
    (props.containsPair "id" v = true → isDefinedNonNullValue v = true →
      applyRepoRule m origCallee "save" (.cons (.obj props) .nil)
        = (.call (.member (.member (.member .thisE "prisma") m) "update")
            (.cons (.obj (.cons "where" (.obj (.cons "id" v .nil))
              (.cons "data" (.obj (props.filterP (fun k _ => !(k == "id")))) .nil))) .nil),
            [saveNoteComment])) ∧
    (props.anyP (fun k w => k == "id" && isDefinedNonNullValue w) = false →
      applyRepoRule m origCallee "save" (.cons (.obj props) .nil)
        = (.call (.member (.member (.member .thisE "prisma") m) "create")
            (.cons (.obj (.cons "data" (.obj props) .nil)) .nil), [saveNoteComment])) := by
  constructor
  · intro hmem hval
    have hany := PropList.anyP_id_of_containsPair props v hmem hval
    have hfirst := PropList.firstVal_of_unique props v hcount hmem
    have hrem := PropList.removeFirst_eq_filter_of_unique props hcount
    simp [applyRepoRule, saveTransform, saveHasIdProperty, hany, hfirst, hrem]
  · intro hnone
    have hany : props.anyP
        (fun k w => k == "id" && !(w == Expr.nullLit) && hasDefinedValue w) = false := by
      simpa [isDefinedNonNullValue, Bool.and_assoc] using hnone
    simp [applyRepoRule, saveTransform, saveHasIdProperty, hany]

/-- Witness for C3 (amended): `save({id: 5, name: 'x'})` becomes the update
form with `where: {id: 5}` and `data: {name: 'x'}`; `save({name: 'x'})`
becomes the create form. -/
theorem c3_save_amended_witness :
    applyRepoRule "model" (.member (.member .thisE "repository") "save") "save"
        (.cons (.obj (.cons "id" (.numLit 5) (.cons "name" (.strLit "x") .nil))) .nil)
      = (.call (.member (.member (.member .thisE "prisma") "model") "update")
          (.cons (.obj (.cons "where" (.obj (.cons "id" (.numLit 5) .nil))
            (.cons "data" (.obj ((PropList.cons "id" (.numLit 5)
              (.cons "name" (.strLit "x") .nil)).filterP (fun k _ => !(k == "id")))) .nil))) .nil),
          [saveNoteComment]) ∧
    applyRepoRule "model" (.member (.member .thisE "repository") "save") "save"
        (.cons (.obj (.cons "name" (.strLit "x") .nil)) .nil)
      = (.call (.member (.member (.member .thisE "prisma") "model") "create")
          (.cons (.obj (.cons "data" (.obj (.cons "name" (.strLit "x") .nil)) .nil)) .nil),
          [saveNoteComment]) :=
  ⟨(c3_save_amended "model" (.member (.member .thisE "repository") "save")
      (.cons "id" (.numLit 5) (.cons "name" (.strLit "x") .nil)) (.numLit 5)
      (by decide)).1 (by decide) (by decide),
   (c3_save_amended "model" (.member (.member .thisE "repository") "save")
      (.cons "name" (.strLit "x") .nil) (.numLit 5)
      (by decide)).2 (by decide)⟩

/-- C2 fails as stated: the pipeline is not idempotent.  A file containing
one `@Entity()` class is annotated with the advisory comment on every
application — the class itself is matched again on the second run, so the
second output carries the comment twice. -/
theorem c2_idempotence_counterexample :
    transformTree (transformTree entityOnlyFile) ≠ transformTree entityOnlyFile := by
  decide

/-- C2 amended: the rule-table call rewrites themselves are keyed on
source-library shapes — a repository call rewritten by any rewriting row of
the table gets the receiver `this.prisma.<model>`, which (as long as the
resolved model name is not itself `repository`) no longer matches the
repository-call shape, so a second application leaves it alone.  (The
comment-only stages — entity-class annotation, `createQueryBuilder`
advisories, entity-path import advisories — re-fire on every application,
which is what the counterexample exhibits.) -/
theorem c2_rewrite_not_rematched (m : String) (o : Expr) (methodName : String)
    (args : ExprList) (h1 : methodName ∈ rewritingMethods)
    (h2 : (m == "repository") = false) :
    isRepoCallShape
      (applyRepoRule m (.member (.member o "repository") methodName) methodName args).1
      = false := by
  have hsave : ∀ a,
      isRepoCallShape (saveTransform (.member (.member .thisE "prisma") m) a).1 = false := by
    intro a
    simp only [saveTransform]
    by_cases hid : saveHasIdProperty a = true
    · rw [if_pos hid]
      cases a with
      | nil => simp [isRepoCallShape, h2]
      | cons hd tl => cases hd <;> simp [isRepoCallShape, h2]
    · rw [if_neg hid]
      cases a with
      | nil => simp [isRepoCallShape, h2]
      | cons hd tl => cases hd <;> cases tl <;> simp [isRepoCallShape, h2]
  fin_cases h1 <;>
    first
      | exact hsave args
      | simp [applyRepoRule, isRepoCallShape, h2]

/-- Witness for C2 (amended): a rewritten `find` call no longer matches the
repository-call shape. -/
theorem c2_rewrite_not_rematched_witness :
    isRepoCallShape
      (applyRepoRule "User" (.member (.member .thisE "repository") "find") "find" .nil).1
      = false :=
  c2_rewrite_not_rematched "User" .thisE "find" .nil (by decide) (by decide)

/-- C8 fails as stated: a file whose only statement is an entity-path
dependency declaration gets the advisory marker attached (tree changes), but the
`modules` flag stays `false`. -/
theorem c8_modules_flag_counterexample :
    (transformModuleImports entityImportFile).2 = false ∧
    (transformModuleImports entityImportFile).1 ≠ entityImportFile := by
  decide

/-- C8 amended: an import declaration's rewrite sets the `modules` flag
exactly when it is a `typeorm` import containing the `Repository` or
`Entity` specifier, or an import whose path matches `typeorm/repository`.
In particular the advisory marker attached to an entity-path import, and
the removal of a `typeorm` import whose specifier list was already empty,
do not set the flag. -/
theorem c8_modules_flag_amended (ls : LStmt) (d : ImportDecl) :
    (processImportStmt ls d).2.2
      = (((d.source == "typeorm")
            && (hasNamedSpecifier "Repository" d.specifiers
                || hasNamedSpecifier "Entity" d.specifiers))
          || matchesTypeormRepositoryPath d.source) := by
  obtain ⟨src, specs⟩ := d
  by_cases h1 : src = "typeorm"
  · subst h1
    have hm : matchesTypeormRepositoryPath "typeorm" = false := by decide
    simp only [processImportStmt]
    rw [if_pos (by simp)]
    repeat' split
    all_goals simp [hm]
  · have h1b : (src == "typeorm") = false := by simpa using h1
    simp only [processImportStmt]
    rw [if_neg (by simp [h1b])]
    by_cases h2 : matchesTypeormRepositoryPath src = true
    · rw [if_pos h2]
      simp [h1b, h2]
    · have h2b : matchesTypeormRepositoryPath src = false := by simpa using h2
      rw [if_neg (by simp [h2b])]
      split <;> simp [h1b, h2b]

/-- A matched repository callee decomposes as `x.repository.method`. -/
theorem calleeShape_exists (c : Expr) (h : isRepoCalleeShape c = true) :
    ∃ x meth, c = .member (.member x "repository") meth := by
  cases c with
  | member o meth =>
      cases o with
      | member x q =>
          have hq : q = "repository" := by simpa [isRepoCalleeShape] using h
          exact ⟨x, meth, by rw [hq]⟩
      | numLit n => simp [isRepoCalleeShape] at h
      | strLit s => simp [isRepoCalleeShape] at h
      | boolLit b => simp [isRepoCalleeShape] at h
      | nullLit => simp [isRepoCalleeShape] at h
      | ident n => simp [isRepoCalleeShape] at h
      | thisE => simp [isRepoCalleeShape] at h
      | arrow b => simp [isRepoCalleeShape] at h
      | call f a => simp [isRepoCalleeShape] at h
      | obj ps => simp [isRepoCalleeShape] at h
  | numLit n => simp [isRepoCalleeShape] at h
  | strLit s => simp [isRepoCalleeShape] at h
  | boolLit b => simp [isRepoCalleeShape] at h
  | nullLit => simp [isRepoCalleeShape] at h
  | ident n => simp [isRepoCalleeShape] at h
  | thisE => simp [isRepoCalleeShape] at h
  | arrow b => simp [isRepoCalleeShape] at h
  | call f a => simp [isRepoCalleeShape] at h
  | obj ps => simp [isRepoCalleeShape] at h

/-- The call walk preserves the matched-callee shape: member accesses keep
their property names. -/
theorem rewrite_preserves_calleeShape (lk : List (String × List ClassProp))
    (cn : Option String) (c : Expr) (h : isRepoCalleeShape c = true) :
    isRepoCalleeShape (rewriteExpr lk cn c).1 = true := by
  obtain ⟨x, meth, rfl⟩ := calleeShape_exists c h
  simp [rewriteExpr, isRepoCalleeShape]

mutual

/-- Any contained repository call makes the call walk report a match. -/
theorem containsRepoCall_flag (lk : List (String × List ClassProp)) (cn : Option String) :
    ∀ e : Expr, containsRepoCall e = true → (rewriteExpr lk cn e).2.2 = true
  | .call c args, h => by
      simp only [containsRepoCall, Bool.or_eq_true] at h
      rcases h with (hs | hc) | ha
      · obtain ⟨x, meth, hc'⟩ :=
          calleeShape_exists _ (rewrite_preserves_calleeShape lk cn c hs)
        simp only [rewriteExpr]
        rw [hc']
        rfl
      · have ih := containsRepoCall_flag lk cn c hc
        simp only [rewriteExpr]
        split
        · rfl
        · simp [ih]
      · have ih := containsRepoCallList_flag lk cn args ha
        simp only [rewriteExpr]
        split
        · rfl
        · simp [ih]
  | .member o p, h => by
      rw [containsRepoCall] at h
      have ih := containsRepoCall_flag lk cn o h
      simpa [rewriteExpr] using ih
  | .arrow b, h => by
      rw [containsRepoCall] at h
      have ih := containsRepoCall_flag lk cn b h
      simpa [rewriteExpr] using ih
  | .obj ps, h => by
      rw [containsRepoCall] at h
      have ih := containsRepoCallProps_flag lk cn ps h
      simpa [rewriteExpr] using ih
  | .numLit _, h => by simp [containsRepoCall] at h
  | .strLit _, h => by simp [containsRepoCall] at h
  | .boolLit _, h => by simp [containsRepoCall] at h
  | .nullLit, h => by simp [containsRepoCall] at h
  | .ident _, h => by simp [containsRepoCall] at h
  | .thisE, h => by simp [containsRepoCall] at h

/-- `containsRepoCall_flag` over argument lists. -/
theorem containsRepoCallList_flag (lk : List (String × List ClassProp)) (cn : Option String) :
    ∀ l : ExprList, containsRepoCallList l = true → (rewriteExprList lk cn l).2.2 = true
  | .nil, h => by simp [containsRepoCallList] at h
  | .cons e tl, h => by
      rw [containsRepoCallList, Bool.or_eq_true] at h
      rcases h with h | h
      · simp [rewriteExprList, containsRepoCall_flag lk cn e h]
      · simp [rewriteExprList, containsRepoCallList_flag lk cn tl h]

/-- `containsRepoCall_flag` over property lists. -/
theorem containsRepoCallProps_flag (lk : List (String × List ClassProp)) (cn : Option String) :
    ∀ ps : PropList, containsRepoCallProps ps = true → (rewritePropList lk cn ps).2.2 = true
  | .nil, h => by simp [containsRepoCallProps] at h
  | .cons k v tl, h => by
      rw [containsRepoCallProps, Bool.or_eq_true] at h
      rcases h with h | h
      · simp [rewritePropList, containsRepoCall_flag lk cn v h]
      · simp [rewritePropList, containsRepoCallProps_flag lk cn tl h]

end

/-- `containsRepoCall_flag` over decorator lists. -/
theorem rewriteDecorators_flag (lk : List (String × List ClassProp)) (cn : Option String) :
    ∀ ds : List (String × ExprList),
      ds.any (fun d => containsRepoCallList d.2) = true →
      (rewriteDecorators lk cn ds).2.2 = true
  | [], h => by simp at h
  | d :: rest, h => by
      simp only [List.any_cons, Bool.or_eq_true] at h
      rcases h with h | h
      · simp [rewriteDecorators, containsRepoCallList_flag lk cn d.2 h]
      · simp [rewriteDecorators, rewriteDecorators_flag lk cn rest h]

/-- `containsRepoCall_flag` over the properties' decorator lists. -/
theorem rewritePropsDecorators_flag (lk : List (String × List ClassProp)) (cn : Option String) :
    ∀ ps : List ClassProp,
      ps.any (fun p => p.decorators.any (fun d => containsRepoCallList d.2)) = true →
      (rewritePropsDecorators lk cn ps).2.2 = true
  | [], h => by simp at h
  | p :: rest, h => by
      simp only [List.any_cons, Bool.or_eq_true] at h
      rcases h with h | h
      · simp [rewritePropsDecorators, rewriteDecorators_flag lk cn p.decorators h]
      · simp [rewritePropsDecorators, rewritePropsDecorators_flag lk cn rest h]

/-- `containsRepoCall_flag` over method-body expression lists. -/
theorem rewriteBodyExprs_flag (lk : List (String × List ClassProp)) (cn : Option String) :
    ∀ es : List Expr,
      es.any containsRepoCall = true → (rewriteBodyExprs lk cn es).2.2 = true
  | [], h => by simp at h
  | e :: rest, h => by
      simp only [List.any_cons, Bool.or_eq_true] at h
      rcases h with h | h
      · simp [rewriteBodyExprs, containsRepoCall_flag lk cn e h]
      · simp [rewriteBodyExprs, rewriteBodyExprs_flag lk cn rest h]

/-- A statement containing a repository call makes the call walk set the
per-statement flag. -/
theorem rewriteCallStmt_flag (lk : List (String × List ClassProp)) (ls : LStmt)
    (h : stmtContainsRepoCall ls = true) : (rewriteCallStmt lk ls).2 = true := by
  obtain ⟨lead, stmt⟩ := ls
  cases stmt with
  | exprStmt e =>
      simp only [stmtContainsRepoCall] at h
      simp [rewriteCallStmt, containsRepoCall_flag lk none e h]
  | classDecl c =>
      simp only [stmtContainsRepoCall, Bool.or_eq_true] at h
      simp only [rewriteCallStmt, rewriteClassExprs]
      rcases h with (h | h) | h
      · simp [rewriteDecorators_flag lk (some c.name) c.decorators h]
      · simp [rewritePropsDecorators_flag lk (some c.name) c.props h]
      · simp [rewriteBodyExprs_flag lk (some c.name) c.bodyExprs h]
  | importDecl d => simp [stmtContainsRepoCall] at h

/-- The entity stage only touches leading comments. -/
theorem annotateEntity_stmt (ls : LStmt) : (annotateEntity ls).stmt = ls.stmt := by
  obtain ⟨lead, stmt⟩ := ls
  cases stmt with
  | classDecl c =>
      simp only [annotateEntity]
      split <;> rfl
  | importDecl d => rfl
  | exprStmt e => rfl

/-- `stmtContainsRepoCall` only reads the statement. -/
theorem stmtContains_congr (a b : LStmt) (h : a.stmt = b.stmt) :
    stmtContainsRepoCall a = stmtContainsRepoCall b := by
  obtain ⟨la, sa⟩ := a
  obtain ⟨lb, sb⟩ := b
  simp only at h
  subst h
  rfl

/-- The constructor-injection replacement does not change the expressions
`stmtContainsRepoCall` inspects. -/
theorem stmtContains_rewriteCtorStmt (ls : LStmt) :
    stmtContainsRepoCall (rewriteCtorStmt ls) = stmtContainsRepoCall ls := by
  obtain ⟨lead, stmt⟩ := ls
  cases stmt <;> rfl

/-- C9: any file containing a call expression whose receiver is a member
access on a member named `repository` — whatever its method name — gets the
`services` flag set, so the file is re-serialized by the printer rather
than returned as the original source string. -/
theorem c9_repo_call_sets_services (t : File) (h : fileContainsRepoCall t = true) :
    (runStages t).2.services = true ∧
    ∀ source, transform source t = toSource (runStages t).1 := by
  have helper : ∀ (lk : List (String × List ClassProp)) (body : List LStmt),
      body.any stmtContainsRepoCall = true →
      ((body.map rewriteCtorStmt).map (rewriteCallStmt lk)).any (fun r => r.2) = true := by
    intro lk body hb
    rw [List.any_eq_true] at hb ⊢
    obtain ⟨ls, hmem, hls⟩ := hb
    refine ⟨rewriteCallStmt lk (rewriteCtorStmt ls),
      List.mem_map_of_mem _ (List.mem_map_of_mem _ hmem), ?_⟩
    apply rewriteCallStmt_flag
    rw [stmtContains_rewriteCtorStmt]
    exact hls
  have hS : (runStages t).2.services = true := by
    show (transformRepositoryUsage (transformEntityClasses t).1).2 = true
    rw [fileContainsRepoCall, List.any_eq_true] at h
    obtain ⟨ls, hmem, hls⟩ := h
    simp only [transformRepositoryUsage, transformEntityClasses, Bool.or_eq_true]
    right
    refine helper _ _ ?_
    rw [List.any_eq_true]
    refine ⟨annotateEntity ls, List.mem_map_of_mem _ hmem, ?_⟩
    rw [stmtContains_congr _ _ (annotateEntity_stmt ls)]
    exact hls
  refine ⟨hS, fun source => ?_⟩
  have hA : anyFlag (runStages t).2 = true := by simp [anyFlag, hS]
  simp [transform, hA]

/-- Witness for C9: a file whose only statement is `this.repository.exist()`
— a method name outside the rule table — still gets `services` set and is
re-serialized. -/
theorem c9_repo_call_sets_services_witness :
    (runStages unknownRepoCallFile).2.services = true ∧
    transform "original" unknownRepoCallFile = toSource (runStages unknownRepoCallFile).1 :=
  ⟨(c9_repo_call_sets_services unknownRepoCallFile (by decide)).1,
   (c9_repo_call_sets_services unknownRepoCallFile (by decide)).2 "original"⟩
